import Mathlib

/-!
Verification of the Lightning League live-match engine against its
natural-language specification.

The definitions below are shallow embeddings of the TypeScript source:

* `GameCtx`   — the legacy session reducer in src/components/../context/GameContext.tsx
                (buzzIn, submitAnswer, nextQuestion, endGame).
* `Store`     — the Firestore service layer in src/services/firestore.ts
                (createMatchHistory, getQuestionsByIds, updateGame).
* `Load`      — MatchPlayPage.loadMatch (pages, unnamed part_009).
* `Coord`     — the match-completion protocol performed by each participant
                at the end of PracticeMode.endGame (PracticeMode.tsx lines
                723-835): write own matchHistory, read game + histories,
                check, then update status and fan out notifications.
* `StatusOps` — the operations that write Game.status (CreateMatch
                handleBeginMatch / handleCancelMatch, joinMatch,
                PracticeMode.endGame).
* `PM`        — the per-participant question state machine of
                PracticeMode.tsx (reveal interval, question timer,
                buzz, hesitation timers, answer handling), embedded as an
                event-driven transition system whose events correspond to
                the user actions and timer callbacks of the component.
* `Timed`     — a wall-clock simulation of the reveal interval and the
                question timer for a single question with no buzz
                (PracticeMode.tsx lines 196-241).

Machine integers of the source are modelled as `Nat`/`Int`/`Rat`; the
source never relies on overflow.  Timestamps are milliseconds as `Nat`.
-/

namespace LightningLeague

/-! ## GameCtx: the legacy GameContext session reducer -/

namespace GameCtx

/-- Per-subject statistics, `subjectStats[subject] = { correct, total }`,
kept as an association list (insertion order is irrelevant to the claims). -/
structure SubjStat where
  correct : Nat
  total : Nat
deriving Repr, DecidableEq

/-- The slice of GameContext.tsx `GameState` that the arbitration and
finalisation logic reads and writes (lines 31-45 of the source). -/
structure GState where
  hasStarted : Bool
  hasBuzzed : Bool
  /-- `buzzTime: number | null`; `buzzIn` stores `Date.now()` here. -/
  buzzTime : Option Nat
  score : Nat
  questionsCorrect : Nat
  questionsAttempted : Nat
  subjectStats : List (String × SubjStat)
deriving Repr, DecidableEq

/-- `buzzIn` (GameContext.tsx lines 115-124): rejected when the question has
already been buzzed or has not started; otherwise sets `hasBuzzed` and the
buzz timestamp.  The returned Bool is `true` exactly when this attempt won
(the setState actually fired). -/
def buzzIn (s : GState) (now : Nat) : GState × Bool :=
  if s.hasBuzzed || !s.hasStarted then (s, false)
  else ({ s with hasBuzzed := true, buzzTime := some now }, true)

/-- Folding a sequence of buzz attempts (each with its wall-clock time)
through `buzzIn`, collecting which attempts won. -/
def runBuzzes (s : GState) : List Nat → GState × List Bool
  | [] => (s, [])
  | t :: ts =>
    let (s1, won) := buzzIn s t
    let (s2, wons) := runBuzzes s1 ts
    (s2, won :: wons)

/-- The fields of `MatchResult` built by GameContext.tsx `endGame`
(lines 193-202) that the claims mention. -/
structure MatchResult where
  questionsAttempted : Nat
  correctAnswers : Nat
  accuracy : Rat
  averageBuzzTime : Rat
deriving Repr, DecidableEq

/-- JavaScript truthiness of `gameState.buzzTime` in
`gameState.buzzTime ? 2.5 : 0`: `null` and `0` are falsy,
every other number is truthy. -/
def buzzTimeTruthy : Option Nat → Bool
  | none => false
  | some t => decide (t ≠ 0)

/-- The `matchResult` record construction inside `endGame`
(GameContext.tsx lines 193-202).  `averageBuzzTime` is the literal
`gameState.buzzTime ? 2.5 : 0`. -/
def mkMatchResult (s : GState) : MatchResult :=
  { questionsAttempted := s.questionsAttempted
    correctAnswers := s.questionsCorrect
    accuracy :=
      if s.questionsAttempted > 0 then
        ((s.questionsCorrect : Rat) / (s.questionsAttempted : Rat)) * 100
      else 0
    averageBuzzTime := if buzzTimeTruthy s.buzzTime then (5 : Rat) / 2 else 0 }

end GameCtx

/-! ## Store: firestore.ts service functions -/

namespace Store

/-- A matchHistory document as persisted by `createMatchHistory`
(firestore.ts lines 541-581), restricted to the identifying fields.
`docId` models the fresh random document id of `doc(matchHistoryCollection)`. -/
structure MHDoc where
  docId : Nat
  gameId : String
  playerId : String
deriving Repr, DecidableEq

/-- The input to `createMatchHistory`: identifying fields of an
`Omit MatchHistory`. -/
structure MHInput where
  gameId : String
  playerId : String
deriving Repr, DecidableEq

/-- `createMatchHistory` (firestore.ts lines 541-581): allocates a fresh
document reference and `setDoc`s the entry.  There is no read of the
collection and no existence check; the collection is modelled as the list
of documents and a fresh id as the next unused index. -/
def createMatchHistory (col : List MHDoc) (m : MHInput) : List MHDoc :=
  col ++ [{ docId := col.length, gameId := m.gameId, playerId := m.playerId }]

/-- Number of result entries for one (match, participant) pair. -/
def countEntries (col : List MHDoc) (g p : String) : Nat :=
  (col.filter (fun d => d.gameId = g && d.playerId = p)).length

/-- A question document, restricted to the fields the engine reads. -/
structure Question where
  id : String
  questionText : List String
  correctAnswer : String
  distractors : List String
  subjectArea : String
deriving Repr, DecidableEq

/-- The sequential fetch loop of `getQuestionsByIds` (firestore.ts lines
131-148): each id is fetched individually; a non-existent document is
simply not pushed onto the result array. -/
def fetchLoop (db : String → Option Question) : List String → List Question
  | [] => []
  | qid :: rest =>
    match db qid with
    | some q => q :: fetchLoop db rest
    | none => fetchLoop db rest

/-- `getQuestionsByIds` (firestore.ts lines 126-152): fetch each id, then
re-order by mapping each requested id to the fetched question with that id
and filtering out the ids that found nothing (`.filter(q => q !== undefined)`). -/
def getQuestionsByIds (db : String → Option Question) (questionIds : List String) :
    List Question :=
  if questionIds = [] then []
  else
    let questions := fetchLoop db questionIds
    (questionIds.map (fun qid => questions.find? (fun q => q.id = qid))).reduceOption

/-- A well-formed question database stores each question under its own id. -/
def DbWF (db : String → Option Question) : Prop :=
  ∀ qid q, db qid = some q → q.id = qid

end Store

/-! ## Load: MatchPlayPage.loadMatch (unnamed part_009 lines 36-96) -/

namespace Load

/-- Game document fields read by loadMatch. -/
inductive GStatus where
  | waiting
  | active
  | completed
deriving Repr, DecidableEq, Fintype

structure GameDoc where
  status : GStatus
  playerIds : List String
  questionIds : List String
deriving Repr, DecidableEq

/-- Outcome of `loadMatch`: either one of its `setError` messages, or the
match together with the questions handed to `PracticeMode`. -/
inductive LoadResult where
  | err (msg : String)
  | ok (questions : List Store.Question)
deriving Repr, DecidableEq

/-- `loadMatch` (part_009 lines 36-96): checks the game exists, is active,
includes the player; then fetches `getQuestionsByIds` and errors only when
the fetched list is empty. -/
def loadMatch (games : String → Option GameDoc) (db : String → Option Store.Question)
    (gameId : Option String) (uid : String) : LoadResult :=
  match gameId with
  | none => .err "No game ID provided"
  | some gid =>
    match games gid with
    | none => .err "Match not found"
    | some matchData =>
      if matchData.status ≠ .active then .err "Match is not active"
      else if uid ∉ matchData.playerIds then .err "You are not part of this match"
      else if matchData.questionIds.length > 0 then
        let matchQuestions := Store.getQuestionsByIds db matchData.questionIds
        if matchQuestions.length = 0 then .err "No questions found for this match"
        else .ok matchQuestions
      else .err "Match has no questions"

end Load

/-! ## Coord: the completion protocol of PracticeMode.endGame (lines 723-835)

Each participant that finishes runs, in order: `createMatchHistory` (write
its own result entry), `getGame` (read the game document, including
`status`), `getMatchHistoriesByGameId` (read which participants have
entries), then — if every rostered player has an entry and the status it
read is not `completed` — `updateGame {status (equals) completed}` (an
unconditional `updateDoc`, firestore.ts lines 369-386) followed by one
notification per player plus one for the coach.

The model has two participants; `fanout = 3` (2 players + coach).  A move
`i : Fin 2` lets participant `i` execute its next sequential step, so a
list of moves is one interleaving of the two coordinators. -/

namespace Coord

/-- Program counter of one participant coordinator.  `toCommit b` records
the decision taken from the values read: `b = true` means the caller
observed all histories present and a status other than completed, so its
next step performs the status write and the notification fan-out. -/
inductive Phase where
  | toWrite
  | toCheck
  | toCommit (will : Bool)
  | finished (updated : Bool)
deriving Repr, DecidableEq, Fintype

/-- Has this participant already written its matchHistory entry? -/
def Phase.wrote : Phase → Bool
  | .toWrite => false
  | _ => true

/-- Did this participant perform the status update and fan-out? -/
def Phase.updatedDone : Phase → Bool
  | .finished true => true
  | _ => false

/-- Has this participant decided (from its reads) to skip the update? -/
def Phase.decidedFalse : Phase → Bool
  | .toCommit false => true
  | .finished false => true
  | _ => false

/-- Is this participant finished? -/
def Phase.isFinished : Phase → Bool
  | .finished _ => true
  | _ => false

/-- Shared game status plus both program counters. -/
structure Core where
  p1 : Phase
  p2 : Phase
  status : Load.GStatus
deriving Repr, DecidableEq, Fintype

def Core.phase (c : Core) : Fin 2 → Phase
  | 0 => c.p1
  | 1 => c.p2

def Core.setPhase (c : Core) : Fin 2 → Phase → Core
  | 0, p => { c with p1 := p }
  | 1, p => { c with p2 := p }

/-- One sequential step of participant `i`:
  * `toWrite`: `createMatchHistory` — its entry becomes visible;
  * `toCheck`: `getGame` + `getMatchHistoriesByGameId` — computes
    `allPlayersCompleted` (the other entry is visible, the caller counts
    itself via `completedPlayerIds = Set([playerId])`) and remembers
    whether the status it read differs from completed
    (PracticeMode.tsx lines 767, 780-781);
  * `toCommit true`: `updateGame` sets the status unconditionally and the
    fan-out notifications are sent (lines 784-834);
  * `toCommit false` / `finished`: nothing further. -/
def stepCore (c : Core) (i : Fin 2) : Core :=
  match c.phase i with
  | .toWrite => c.setPhase i .toCheck
  | .toCheck =>
    c.setPhase i (.toCommit ((c.phase (1 - i)).wrote && c.status ≠ .completed))
  | .toCommit true => { c.setPhase i (.finished true) with status := .completed }
  | .toCommit false => c.setPhase i (.finished false)
  | .finished b => c.setPhase i (.finished b)

/-- Does the next step of `i` perform the update + fan-out? -/
def commits (c : Core) (i : Fin 2) : Bool :=
  c.phase i = Phase.toCommit true

/-- Full system state: shared document + both coordinators + the number of
notification documents created so far. -/
structure Sys where
  core : Core
  notifs : Nat
deriving Repr, DecidableEq

/-- Notifications per successful completion call: one per rostered player
plus one for the coach (2 players here). -/
def fanout : Nat := 3

def step (s : Sys) (i : Fin 2) : Sys :=
  { core := stepCore s.core i
    notifs := s.notifs + (if commits s.core i then fanout else 0) }

def run (s : Sys) : List (Fin 2) → Sys
  | [] => s
  | i :: moves => run (step s i) moves

/-- Both participants finish after the match has been begun
(status `active`), no notifications sent yet. -/
def init : Sys :=
  { core := { p1 := .toWrite, p2 := .toWrite, status := .active }, notifs := 0 }

/-- How many of the two coordinators performed the update + fan-out. -/
def updatedCount (c : Core) : Nat :=
  (if c.p1.updatedDone then 1 else 0) + (if c.p2.updatedDone then 1 else 0)

def bothFinished (c : Core) : Bool :=
  c.p1.isFinished && c.p2.isFinished

/-- Inductive invariant of the protocol: the status is completed exactly
when some coordinator has committed, and two coordinators cannot both have
decided to skip while the status is still not completed. -/
def Inv (c : Core) : Prop :=
  (c.status = .completed ↔ (c.p1.updatedDone || c.p2.updatedDone) = true) ∧
  ¬(c.p1.decidedFalse = true ∧ c.p2.decidedFalse = true ∧ c.status ≠ .completed)

instance : DecidablePred Inv := fun c => by unfold Inv; infer_instance

def Good (s : Sys) : Prop :=
  Inv s.core ∧ s.notifs = fanout * updatedCount s.core

end Coord

/-! ## StatusOps: every write of Game.status (claim C8)

Operations on one match document.  The coach screen never re-reads the
document before writing: `handleBeginMatch` (part_007 lines 158-176)
writes `status: active` with no status check at all — its only guards are
the button conditions, which test `match.status` on the coach's local
copy, updated solely by the asynchronous onSnapshot listener (part_007
lines 72-95).  The model therefore keeps the authoritative document
status (`remote`) separate from the coach's possibly stale mirror
(`mirror`); a `deliver` operation is the arrival of one snapshot.

  * `deliver` — the onSnapshot callback: copies the document status into
    the mirror and shows the results screen when it sees `completed`
    (part_007 lines 72-95); unsubscribed once the match is closed.
  * `join` — `joinMatch` (firestore.ts lines 402-436): throws unless the
    document status is `waiting`; never writes the status.
  * `begin` — `handleBeginMatch`: the button is rendered while the match
    is open and the results screen is not shown, and is disabled when no
    player joined or the mirror already shows `active`; the write sets
    `active` unconditionally.
  * `cancel` — `handleCancelMatch` (part_007 lines 178-194): same screen;
    writes `completed` unconditionally and closes the match view
    (`setMatch(null)`), removing both buttons.
  * `complete` — PracticeMode.endGame (lines 780-788): writes `completed`
    when the status it read is not already `completed`. -/

namespace StatusOps

open Load (GStatus)

structure MState where
  /-- the game document status in Firestore -/
  remote : GStatus
  /-- the coach component's `match.status`: the last delivered snapshot -/
  mirror : GStatus
  /-- the coach has seen at least one joined player -/
  hasPlayers : Bool
  /-- `showResults` of CreateMatch -/
  resultsShown : Bool
  /-- the coach cancelled: `setMatch(null)`, listener unsubscribed -/
  closed : Bool
deriving Repr, DecidableEq, Fintype

inductive Op where
  | deliver
  | join
  | begin
  | cancel
  | complete
deriving Repr, DecidableEq, Fintype

def applyOp (s : MState) (o : Op) : MState :=
  match o with
  | .deliver =>
    if s.closed then s
    else
      { s with
        mirror := s.remote
        resultsShown := s.resultsShown || s.remote = .completed }
  | .join => if s.remote = .waiting then { s with hasPlayers := true } else s
  | .begin =>
    if !s.closed && !s.resultsShown && s.hasPlayers && s.mirror ≠ .active then
      { s with remote := .active }
    else s
  | .cancel =>
    if !s.closed && !s.resultsShown then { s with remote := .completed, closed := true }
    else s
  | .complete => if s.remote ≠ .completed then { s with remote := .completed } else s

/-- A freshly created match: `createGame` with status `waiting`
(part_007 lines 130-137), the local copy loaded from `getGame`. -/
def initMatch : MState :=
  { remote := .waiting, mirror := .waiting, hasPlayers := false
    resultsShown := false, closed := false }

def run (ops : List Op) : MState :=
  ops.foldl applyOp initMatch

/-- Position of a status in the waiting → active → completed chain. -/
def rank : GStatus → Nat
  | .waiting => 0
  | .active => 1
  | .completed => 2

/-- Invariant: the mirror can only show completed after a snapshot
delivered it, and that delivery also switched the coach to the results
view. -/
def MInv (s : MState) : Prop :=
  s.mirror = .completed → s.resultsShown = true

instance : DecidablePred MInv := fun s => by unfold MInv; infer_instance

end StatusOps

/-! ## PM: the PracticeMode per-participant question state machine

PracticeMode.tsx is embedded as an event-driven transition system.  The
state carries the useState variables the game logic reads and writes, plus
tokens for the live setTimeout callbacks (which fire once unless their
effect cleanup cancels them) and a ghost `log` of resolution events used
to state the exactly-one-outcome claims.  Each event is one user action or
one timer/effect callback; its guard and body are translated from the
cited lines.  React re-runs an effect only when its dependency array
changes; where that matters (the question-timer else-branch, the
2-second hesitation-message timeout) the dependency-change condition is
encoded by an explicit token in the state.

Presentation-only state (shuffledAnswers, showCorrect/showIncorrect, CSS)
is omitted; the availability of the answer grid (rendered only after a
buzz, line 1140) and of the buzzer button (rendered only before a buzz,
enabled only when the question is live, lines 1128-1137) is part of the
event guards. -/

namespace PM

/-- Terminal outcome of one question (ghost taxonomy for the claims). -/
inductive Outcome where
  | correct
  | incorrect
  | timeout
  | hesitationExpired
deriving Repr, DecidableEq

/-- `gameSettings` prop of PracticeMode (seconds, seconds, words/minute). -/
structure Settings where
  questionTime : Nat
  hesitationTime : Nat
  wpm : Nat
deriving Repr, DecidableEq

/-- Which of the three advance-to-next-question setTimeout callbacks is
pending: scheduled by handleAnswer (lines 456-467), by handleTimeExpired
(lines 414-424), or by the hesitation path (lines 343-360).  Each records
the values its closure captured at schedule time (`currentQuestionIndex`
and the score passed to endGame). -/
inductive AdvKind where
  | answer
  | timeout
  | hesitation
deriving Repr, DecidableEq

structure Adv where
  kind : AdvKind
  capturedIndex : Nat
  capturedScore : Nat
deriving Repr, DecidableEq

/-- The matchHistory record built by endGame (lines 527-539), restricted
to the fields the claims mention.  `hesitationCount` is the literal `0` of
line 538. -/
structure MHRec where
  score : Nat
  total : Nat
  correctBySubject : List (String × Nat)
  totalBySubject : List (String × Nat)
  hesitationCount : Nat
deriving Repr, DecidableEq

/-- Session-fixed data: the questions prop and the settings prop. -/
structure Ctx where
  questions : List Store.Question
  settings : Settings
deriving Repr, DecidableEq

/-- The `{...prev, [subject]: (prev[subject] || 0) + 1}` update on a
subject-keyed counter object, as an association list. -/
def bump (m : List (String × Nat)) (s : String) : List (String × Nat) :=
  match m with
  | [] => [(s, 1)]
  | (k, v) :: rest => if k = s then (k, v + 1) :: rest else (k, v) :: bump rest s

/-- Sum of a subject-keyed counter object. -/
def sumCounts (m : List (String × Nat)) : Nat :=
  (m.map Prod.snd).sum

/-- The mutable component state (useState variables of lines 39-62 that
the game logic uses, plus the timer/ghost bookkeeping described above). -/
structure St where
  currentQuestionIndex : Nat
  playerScore : Nat
  timer : Nat
  revealedWordsCount : Nat
  questionFullyRevealed : Bool
  isQuestionLive : Bool
  hasBuzzed : Bool
  showHesitation : Bool
  hesitationTimer : Option Nat
  hesitationComplete : Bool
  showResult : Bool
  selectedAnswer : Option String
  correctBySubject : List (String × Nat)
  totalBySubject : List (String × Nat)
  buzzTimes : List Nat
  questionStartTime : Option Nat
  /-- the question-timer else-branch (line 238) already ran for the
  current dependency values; reset when a new question starts. -/
  timeExpireFired : Bool
  /-- the 2-second hesitation-message timeout of lines 321-361 is live;
  carries the (currentQuestionIndex, playerScore) its closure captured. -/
  hesMsgPending : Option (Nat × Nat)
  pendingAdv : List Adv
  /-- ghost trace: one entry per recorded resolution (question index, outcome). -/
  log : List (Nat × Outcome)
  /-- matchHistory records written by endGame via createMatchHistory. -/
  persisted : List MHRec
deriving Repr, DecidableEq

def currentQ (ctx : Ctx) (s : St) : Option Store.Question :=
  ctx.questions.get? s.currentQuestionIndex

/-- `startQuestion` (lines 150-194).  `validateIdx` is the question index
the closure invoking it had captured (the advance callbacks of
handleAnswer/handleTimeExpired call startQuestion from a closure whose
`currentQuestionIndex` is the previous index); the early validation
returns of lines 151 and 155-162 read that index. -/
def startQuestionAt (ctx : Ctx) (s : St) (validateIdx : Nat) : St :=
  match ctx.questions.get? validateIdx with
  | none => s
  | some q =>
    if q.correctAnswer = "" || q.distractors = [] then s
    else
      { s with
        questionFullyRevealed := false
        revealedWordsCount := 0
        isQuestionLive := true
        hasBuzzed := false
        showHesitation := false
        hesitationTimer := none
        hesitationComplete := false
        selectedAnswer := none
        showResult := false
        timer := ctx.settings.questionTime
        questionStartTime := some 0
        timeExpireFired := false
        hesMsgPending := none }

/-- `endGame(finalScore)` (lines 470-539, 641): builds the matchHistory
record and persists it through `createMatchHistory`; the authentication
preconditions are assumed satisfied. -/
def endGame (ctx : Ctx) (s : St) (finalScore : Nat) : St :=
  { s with
    persisted := s.persisted ++
      [{ score := finalScore
         total := ctx.questions.length
         correctBySubject := s.correctBySubject
         totalBySubject := s.totalBySubject
         hesitationCount := 0 }] }

/-- The events: user actions and timer/effect callbacks. -/
inductive Ev where
  /-- one tick of the word-reveal setInterval (lines 196-226) -/
  | revealTick
  /-- one tick of the question-timer setInterval (lines 228-241) -/
  | qTimerTick
  /-- the else-branch of the question-timer effect calling
  handleTimeExpired (lines 236-239, 408-425) -/
  | timeExpire
  /-- the buzzer button, with the elapsed time recorded by handleBuzz
  (lines 243-270) -/
  | buzz (t : Nat)
  /-- the effect starting the hesitation countdown (lines 273-278) -/
  | hesStart
  /-- one tick of the hesitation countdown setInterval (lines 281-299) -/
  | hesTick
  /-- the effect showing the hesitation message at zero (lines 302-312) -/
  | hesZeroShow
  /-- the effect scheduling the 2-second hesitation timeout (lines 315-320) -/
  | hesMsgSchedule
  /-- that timeout firing (lines 321-361) -/
  | hesMsgFire
  /-- an answer button press (handleAnswer, lines 427-468) -/
  | answer (a : String)
  /-- the k-th pending advance setTimeout firing -/
  | advanceFire (k : Nat)
  /-- the effect calling startQuestion when questionStartTime is null
  (lines 85-90) -/
  | startQ
deriving Repr, DecidableEq

def step (ctx : Ctx) (s : St) : Ev → St
  | .revealTick =>
    match currentQ ctx s with
    | none => s
    | some q =>
      if s.hasBuzzed then s
      else
        let totalWords := q.questionText.length
        if s.revealedWordsCount < totalWords then
          let newCount := s.revealedWordsCount + 1
          { s with
            revealedWordsCount := newCount
            questionFullyRevealed := s.questionFullyRevealed || newCount = totalWords }
        else s
  | .qTimerTick =>
    if s.questionFullyRevealed && s.timer > 0 && !s.hasBuzzed then
      { s with timer := s.timer - 1 }
    else s
  | .timeExpire =>
    if s.timer = 0 && s.questionFullyRevealed && !s.hasBuzzed && !s.timeExpireFired then
      { s with
        timeExpireFired := true
        showResult := true
        selectedAnswer := none
        log := s.log ++ [(s.currentQuestionIndex, .timeout)]
        pendingAdv := s.pendingAdv ++
          [{ kind := .timeout
             capturedIndex := s.currentQuestionIndex
             capturedScore := s.playerScore }] }
    else s
  | .buzz t =>
    if !s.isQuestionLive then s
    else if s.hasBuzzed || s.questionStartTime = none then s
    else
      { s with
        buzzTimes := s.buzzTimes ++ [t]
        hasBuzzed := true
        questionFullyRevealed := true
        hesitationComplete := false
        showHesitation := false
        hesMsgPending := none }
  | .hesStart =>
    if s.hasBuzzed && s.hesitationTimer = none && !s.hesitationComplete && !s.showResult then
      { s with hesitationTimer := some ctx.settings.hesitationTime }
    else s
  | .hesTick =>
    match s.hesitationTimer with
    | none => s
    | some v =>
      if s.showResult || s.hesitationComplete || v = 0 then s
      else { s with hesitationTimer := some (v - 1) }
  | .hesZeroShow =>
    if s.showResult || s.hesitationComplete || !s.hasBuzzed then s
    else if s.hesitationTimer = some 0 && !s.showHesitation then
      { s with showHesitation := true }
    else s
  | .hesMsgSchedule =>
    if s.showHesitation && !s.hesitationComplete && !s.showResult && s.hasBuzzed
        && s.hesMsgPending = none then
      { s with hesMsgPending := some (s.currentQuestionIndex, s.playerScore) }
    else s
  | .hesMsgFire =>
    match s.hesMsgPending with
    | none => s
    | some (cidx, cscore) =>
      { s with
        hesMsgPending := none
        showHesitation := false
        hesitationComplete := true
        showResult := true
        selectedAnswer := none
        totalBySubject :=
          match ctx.questions.get? cidx with
          | some q => bump s.totalBySubject q.subjectArea
          | none => s.totalBySubject
        log := s.log ++ [(cidx, .hesitationExpired)]
        pendingAdv := s.pendingAdv ++
          [{ kind := .hesitation, capturedIndex := cidx, capturedScore := cscore }] }
  | .answer a =>
    if !s.hasBuzzed then s
    else if s.showResult || s.hesitationComplete then s
    else
      match currentQ ctx s with
      | none => s
      | some q =>
        let isCorrect := a = q.correctAnswer
        let updatedScore := if isCorrect then s.playerScore + 1 else s.playerScore
        { s with
          selectedAnswer := some a
          showResult := true
          totalBySubject := bump s.totalBySubject q.subjectArea
          playerScore := updatedScore
          correctBySubject :=
            if isCorrect then bump s.correctBySubject q.subjectArea else s.correctBySubject
          log := s.log ++
            [(s.currentQuestionIndex, if isCorrect then .correct else .incorrect)]
          pendingAdv := s.pendingAdv ++
            [{ kind := .answer
               capturedIndex := s.currentQuestionIndex
               capturedScore := updatedScore }] }
  | .advanceFire k =>
    match s.pendingAdv.get? k with
    | none => s
    | some adv =>
      let s0 := { s with pendingAdv := s.pendingAdv.eraseIdx k }
      let nextIndex := adv.capturedIndex + 1
      if ctx.questions.length ≤ nextIndex then endGame ctx s0 adv.capturedScore
      else
        match adv.kind with
        | .answer =>
          startQuestionAt ctx { s0 with currentQuestionIndex := nextIndex } adv.capturedIndex
        | .timeout =>
          startQuestionAt ctx { s0 with showResult := false, currentQuestionIndex := nextIndex }
            adv.capturedIndex
        | .hesitation =>
          { s0 with
            showResult := false
            currentQuestionIndex := nextIndex
            questionStartTime := none
            hasBuzzed := false
            showHesitation := false
            hesitationTimer := none
            hesitationComplete := false
            selectedAnswer := none
            hesMsgPending := none }
  | .startQ =>
    if s.questionStartTime = none && s.currentQuestionIndex < ctx.questions.length then
      startQuestionAt ctx s s.currentQuestionIndex
    else s

/-- The useState initial values (lines 39-62), after loading finished. -/
def initSt (ctx : Ctx) : St :=
  { currentQuestionIndex := 0
    playerScore := 0
    timer := ctx.settings.questionTime
    revealedWordsCount := 0
    questionFullyRevealed := false
    isQuestionLive := false
    hasBuzzed := false
    showHesitation := false
    hesitationTimer := none
    hesitationComplete := false
    showResult := false
    selectedAnswer := none
    correctBySubject := []
    totalBySubject := []
    buzzTimes := []
    questionStartTime := none
    timeExpireFired := false
    hesMsgPending := none
    pendingAdv := []
    log := []
    persisted := [] }

def runEv (ctx : Ctx) (s : St) (evs : List Ev) : St :=
  evs.foldl (step ctx) s

/-- Resolutions of the log that are not timeouts (answers and
hesitation expiries — exactly the ones whose handlers bump totalBySubject). -/
def nonTimeoutCount (log : List (Nat × Outcome)) : Nat :=
  (log.filter (fun e => e.2 ≠ Outcome.timeout)).length

/-- Number of logged resolutions of a given question index. -/
def resolutionsOf (log : List (Nat × Outcome)) (i : Nat) : Nat :=
  (log.filter (fun e => e.1 = i)).length

/-- Inductive invariant for the score/counter accounting: the score equals
the summed per-subject correct counts, the summed per-subject totals equal
the non-timeout resolutions, and the question indices held by the live
flags and the pending hesitation timeout are in range. -/
def Acc (ctx : Ctx) (s : St) : Prop :=
  s.playerScore = sumCounts s.correctBySubject ∧
  sumCounts s.totalBySubject = nonTimeoutCount s.log ∧
  (s.isQuestionLive = true → s.currentQuestionIndex < ctx.questions.length) ∧
  (s.hasBuzzed = true → s.currentQuestionIndex < ctx.questions.length) ∧
  (∀ c, s.hesMsgPending = some c → c.1 < ctx.questions.length) ∧
  (∀ mh, mh ∈ s.persisted → mh.hesitationCount = 0)

end PM

/-! ## Timed: wall-clock simulation of one question with no buzz

The reveal setInterval (period `60/wpm` seconds, lines 196-226) and the
question-timer setInterval (period 1 second, started only once
`questionFullyRevealed` is true, lines 228-241) for a single question on
which nobody buzzes.  Time advances in 200 ms ticks (200 divides both
periods for the scenario parameters). -/

namespace Timed

structure TState where
  t : Nat
  revealed : Nat
  /-- the instant (ms) at which the last word became visible -/
  fullyAt : Option Nat
  timer : Nat
  /-- the instant (ms) at which handleTimeExpired ran -/
  firedAt : Option Nat
deriving Repr, DecidableEq

def tick (wpm words : Nat) (s : TState) : TState :=
  let t := s.t + 200
  let msPerWord := 60000 / wpm
  let s1 :=
    if s.revealed < words && t % msPerWord = 0 then
      let newCount := s.revealed + 1
      { s with
        t := t
        revealed := newCount
        fullyAt := if newCount = words then some t else s.fullyAt }
    else { s with t := t }
  let s2 :=
    match s1.fullyAt with
    | none => s1
    | some f =>
      if s1.timer > 0 && f < t && (t - f) % 1000 = 0 then { s1 with timer := s1.timer - 1 }
      else s1
  if s2.timer = 0 && s2.fullyAt ≠ none && s2.firedAt = none then { s2 with firedAt := some t }
  else s2

def simulate (wpm questionTime words : Nat) : Nat → TState
  | 0 => { t := 0, revealed := 0, fullyAt := none, timer := questionTime, firedAt := none }
  | n + 1 => tick wpm words (simulate wpm questionTime words n)

end Timed

/-! ## Concrete fixtures for counterexample and scenario runs -/

/-- A well-formed two-word question of subject SC. -/
def qSC : Store.Question :=
  { id := "q0"
    questionText := ["alpha", "beta"]
    correctAnswer := "A"
    distractors := ["B"]
    subjectArea := "SC" }

/-- A one-question session with the default settings
(questionTime 10 s, hesitationTime 5 s, 150 wpm). -/
def ctxOne : PM.Ctx :=
  { questions := [qSC]
    settings := { questionTime := 10, hesitationTime := 5, wpm := 150 } }

/-- The hesitation-window race: buzz, let the hesitation countdown reach
zero (the HESITATION message appears and the 2-second timeout is
scheduled), submit a correct answer inside that 2-second window, then the
timeout fires. -/
def raceEvents : List PM.Ev :=
  [.startQ, .buzz 1, .hesStart] ++ List.replicate 5 .hesTick ++
    [.hesZeroShow, .hesMsgSchedule, .answer "A", .hesMsgFire]

def raceFinal : PM.St := PM.runEv ctxOne (PM.initSt ctxOne) raceEvents

/-- A session whose only question expires with no buzz: full reveal, the
question timer counts down to zero, handleTimeExpired runs, the advance
callback fires and endGame persists the result. -/
def timeoutEvents : List PM.Ev :=
  [.startQ, .revealTick, .revealTick] ++ List.replicate 10 .qTimerTick ++
    [.timeExpire, .advanceFire 0]

def timeoutFinal : PM.St := PM.runEv ctxOne (PM.initSt ctxOne) timeoutEvents

/-- A session whose only question is buzzed and then forfeited: the
hesitation countdown expires, the message timeout fires and records the
hesitation outcome, the advance callback ends the game. -/
def hesitationEvents : List PM.Ev :=
  [.startQ, .buzz 1, .hesStart] ++ List.replicate 5 .hesTick ++
    [.hesZeroShow, .hesMsgSchedule, .hesMsgFire, .advanceFire 0]

def hesitationFinal : PM.St := PM.runEv ctxOne (PM.initSt ctxOne) hesitationEvents

/-- The stored question q1. -/
def q1ex : Store.Question :=
  { id := "q1"
    questionText := ["gamma"]
    correctAnswer := "A"
    distractors := ["B"]
    subjectArea := "MA" }

/-- A question bank holding only q1. -/
def db3 : String → Option Store.Question :=
  fun qid => if qid = "q1" then some q1ex else none

/-- One active match for player u1 whose question list names q1 and the
missing q2. -/
def games3 : String → Option Load.GameDoc :=
  fun gid =>
    if gid = "g1" then
      some { status := .active, playerIds := ["u1"], questionIds := ["q1", "q2"] }
    else none

/-- A started, not-yet-buzzed GameContext state. -/
def gsLive : GameCtx.GState :=
  { hasStarted := true
    hasBuzzed := false
    buzzTime := none
    score := 0
    questionsCorrect := 0
    questionsAttempted := 0
    subjectStats := [] }

/-- A GameContext state in which the final question was buzzed at time 5. -/
def gsBuzzed : GameCtx.GState :=
  { gsLive with hasBuzzed := true, buzzTime := some 5 }

/-! # Theorems -/

/-! ## C1: the match-completion transition and fan-out -/

lemma coordInv_init : Coord.Inv Coord.init.core := by decide

lemma coordInv_step : ∀ (c : Coord.Core) (i : Fin 2),
    Coord.Inv c → Coord.Inv (Coord.stepCore c i) := by decide

lemma coord_upd_step : ∀ (c : Coord.Core) (i : Fin 2),
    Coord.updatedCount (Coord.stepCore c i) =
      Coord.updatedCount c + (if Coord.commits c i then 1 else 0) := by decide

lemma coord_done_implies : ∀ c : Coord.Core, Coord.Inv c → Coord.bothFinished c = true →
    c.status = Load.GStatus.completed ∧
      1 ≤ Coord.updatedCount c ∧ Coord.updatedCount c ≤ 2 := by decide

lemma coord_good_step (s : Coord.Sys) (i : Fin 2) (h : Coord.Good s) :
    Coord.Good (Coord.step s i) := by
  obtain ⟨hinv, hn⟩ := h
  refine ⟨coordInv_step s.core i hinv, ?_⟩
  simp only [Coord.step]
  rw [coord_upd_step s.core i, hn]
  cases hb : Coord.commits s.core i <;> simp [Coord.fanout, Nat.mul_add]

lemma coord_good_run (moves : List (Fin 2)) :
    ∀ s : Coord.Sys, Coord.Good s → Coord.Good (Coord.run s moves) := by
  induction moves with
  | nil => intro s h; exact h
  | cons i rest ih => intro s h; exact ih (Coord.step s i) (coord_good_step s i h)

/-- C1 counterexample: with two participants finishing concurrently — both
write their history, both then read the game and the histories (observing
status active and all results present) before either performs the update —
both callers write the completed status and both perform the notification
fan-out: 6 notifications are created instead of the claimed single fan-out
of 3 (one per player plus the coach), and the status write executes twice.
The guard is a stale pre-read, not an atomic conditional update. -/
theorem concurrent_finishers_double_fanout :
    (Coord.run Coord.init [0, 1, 0, 1, 0, 1]).notifs = 6 ∧
    Coord.updatedCount (Coord.run Coord.init [0, 1, 0, 1, 0, 1]).core = 2 ∧
    ¬(Coord.updatedCount (Coord.run Coord.init [0, 1, 0, 1, 0, 1]).core = 1) ∧
    ¬((Coord.run Coord.init [0, 1, 0, 1, 0, 1]).notifs = Coord.fanout) := by
  decide

/-- C1 amended: the completion transition is guarded only by a non-atomic
pre-read of the status (updateGame itself is unconditional), so under
concurrent completion checks between one and all of the finishers perform
the status write and the fan-out — each sending one notification per
participant plus the organizer — and the final status is completed in
every interleaving in which both participants run to completion. -/
theorem completion_fanout_bounds (moves : List (Fin 2))
    (h : Coord.bothFinished (Coord.run Coord.init moves).core = true) :
    (Coord.run Coord.init moves).core.status = Load.GStatus.completed ∧
    (Coord.run Coord.init moves).notifs =
      Coord.fanout * Coord.updatedCount (Coord.run Coord.init moves).core ∧
    1 ≤ Coord.updatedCount (Coord.run Coord.init moves).core ∧
    Coord.updatedCount (Coord.run Coord.init moves).core ≤ 2 := by
  have hg : Coord.Good (Coord.run Coord.init moves) :=
    coord_good_run moves Coord.init ⟨coordInv_init, by decide⟩
  obtain ⟨hinv, hn⟩ := hg
  obtain ⟨h1, h2, h3⟩ := coord_done_implies _ hinv h
  exact ⟨h1, hn, h2, h3⟩

/-- C1 witness: the fully sequential interleaving in which participant 1
completes before participant 2 starts finishes both coordinators. -/
theorem completion_fanout_bounds_witness :
    Coord.bothFinished (Coord.run Coord.init [0, 0, 0, 1, 1, 1]).core = true ∧
    (Coord.run Coord.init [0, 0, 0, 1, 1, 1]).core.status = Load.GStatus.completed ∧
    (Coord.run Coord.init [0, 0, 0, 1, 1, 1]).notifs =
      Coord.fanout * Coord.updatedCount (Coord.run Coord.init [0, 0, 0, 1, 1, 1]).core ∧
    1 ≤ Coord.updatedCount (Coord.run Coord.init [0, 0, 0, 1, 1, 1]).core ∧
    Coord.updatedCount (Coord.run Coord.init [0, 0, 0, 1, 1, 1]).core ≤ 2 :=
  ⟨by decide, completion_fanout_bounds [0, 0, 0, 1, 1, 1] (by decide)⟩

/-! ## C2: result-entry idempotence -/

/-- C2 counterexample: createMatchHistory performs no existence check —
writing the same (match, participant) result twice creates two entries,
so the duplicate write is not a logical no-op and the at-most-one
invariant does not hold under duplicate calls. -/
theorem duplicate_result_entry_created :
    Store.countEntries
        (Store.createMatchHistory (Store.createMatchHistory [] ⟨"g", "p"⟩) ⟨"g", "p"⟩)
        "g" "p" = 2 ∧
    ¬(Store.createMatchHistory (Store.createMatchHistory [] ⟨"g", "p"⟩) ⟨"g", "p"⟩ =
        Store.createMatchHistory [] ⟨"g", "p"⟩) ∧
    ¬((2 : Nat) ≤ 1) := by
  decide

/-- C2 amended: createMatchHistory unconditionally appends one fresh
document carrying the given (gameId, playerId) — it never reads the
collection, so each call increases the number of entries for that
(match, participant) pair by exactly one; at most one entry per pair holds
only because each session calls it once. -/
theorem createMatchHistory_appends (col : List Store.MHDoc) (m : Store.MHInput) :
    Store.createMatchHistory col m =
      col ++ [{ docId := col.length, gameId := m.gameId, playerId := m.playerId }] ∧
    Store.countEntries (Store.createMatchHistory col m) m.gameId m.playerId =
      Store.countEntries col m.gameId m.playerId + 1 := by
  refine ⟨rfl, ?_⟩
  simp [Store.countEntries, Store.createMatchHistory, List.filter_append]

/-! ## C8: status monotonicity -/

lemma minv_applyOp : ∀ (s : StatusOps.MState) (o : StatusOps.Op),
    StatusOps.MInv s → StatusOps.MInv (StatusOps.applyOp s o) := by decide

lemma minv_run (ops : List StatusOps.Op) : StatusOps.MInv (StatusOps.run ops) := by
  suffices h : ∀ s, StatusOps.MInv s → StatusOps.MInv (ops.foldl StatusOps.applyOp s) from
    h StatusOps.initMatch (by decide)
  induction ops with
  | nil => intro s hs; exact hs
  | cons o rest ih => intro s hs; exact ih (StatusOps.applyOp s o) (minv_applyOp s o hs)

/-- C8 counterexample, two realizable violations of the claimed chain.
First, cancelling a freshly created match (status waiting) writes
completed — a transition that is neither waiting→active nor
active→completed.  Second, the status moves backward: the coach begins
the match, the snapshot confirming `active` is not yet delivered (the
mirror still shows waiting), the sole player completes the match (status
completed), and the coach presses BEGIN again — handleBeginMatch performs
no status check, so the document goes from completed back to active. -/
theorem status_chain_violated :
    StatusOps.initMatch.remote = Load.GStatus.waiting ∧
    (StatusOps.applyOp StatusOps.initMatch StatusOps.Op.cancel).remote =
      Load.GStatus.completed ∧
    ¬((StatusOps.initMatch.remote = Load.GStatus.waiting ∧
        (StatusOps.applyOp StatusOps.initMatch StatusOps.Op.cancel).remote =
          Load.GStatus.active) ∨
      (StatusOps.initMatch.remote = Load.GStatus.active ∧
        (StatusOps.applyOp StatusOps.initMatch StatusOps.Op.cancel).remote =
          Load.GStatus.completed)) ∧
    (StatusOps.run [.join, .begin, .complete]).remote = Load.GStatus.completed ∧
    (StatusOps.run [.join, .begin, .complete, .begin]).remote = Load.GStatus.active ∧
    StatusOps.rank Load.GStatus.active < StatusOps.rank Load.GStatus.completed := by
  decide

/-- C8 amended: join and deliver never write the status, and cancel and
complete only ever write completed, the maximal status — so every status
write except begin is monotone from any state.  The begin write carries no
status check: it is monotone exactly when the coach mirror it is guarded
by is up to date (then a completed match shows the results screen and an
active one disables the button), and with a stale mirror it can move a
completed match back to active, as the counterexample shows.  The
freshness invariant (a mirror showing completed implies the results
screen) holds along every run. -/
theorem status_writes_monotone_when_fresh :
    (∀ (s : StatusOps.MState) (o : StatusOps.Op), o ≠ StatusOps.Op.begin →
      StatusOps.rank s.remote ≤ StatusOps.rank (StatusOps.applyOp s o).remote) ∧
    (∀ s : StatusOps.MState, StatusOps.MInv s → s.mirror = s.remote →
      StatusOps.rank s.remote ≤
        StatusOps.rank (StatusOps.applyOp s StatusOps.Op.begin).remote) ∧
    (∀ ops : List StatusOps.Op, StatusOps.MInv (StatusOps.run ops)) :=
  ⟨by decide, by decide, minv_run⟩

/-- C8 witness: the non-begin monotonicity at a cancel from the initial
state, the fresh-mirror begin monotonicity at the initial state, and the
invariant after a delivered begin. -/
theorem status_writes_monotone_when_fresh_witness :
    StatusOps.rank StatusOps.initMatch.remote ≤
      StatusOps.rank (StatusOps.applyOp StatusOps.initMatch StatusOps.Op.cancel).remote ∧
    StatusOps.rank StatusOps.initMatch.remote ≤
      StatusOps.rank (StatusOps.applyOp StatusOps.initMatch StatusOps.Op.begin).remote ∧
    StatusOps.MInv (StatusOps.run [.join, .begin, .deliver]) :=
  ⟨status_writes_monotone_when_fresh.1 StatusOps.initMatch StatusOps.Op.cancel (by decide),
   status_writes_monotone_when_fresh.2.1 StatusOps.initMatch (by decide) rfl,
   status_writes_monotone_when_fresh.2.2 [.join, .begin, .deliver]⟩

/-! ## C4: exactly one terminal outcome per question -/

/-- C4: evaluation of the code at the failing input.  In the one-question
session, the participant buzzes, lets the hesitation countdown reach zero
(the HESITATION message appears and its 2-second timeout is scheduled),
then submits the correct answer inside that window.  The answer is
accepted — although the countdown has already expired — and the scheduled
timeout callback still fires, so the same question records two terminal
outcomes (correct and hesitation-expired) and its subject total is
incremented twice. -/
theorem hesitation_window_double_resolution :
    raceFinal.log = [(0, PM.Outcome.correct), (0, PM.Outcome.hesitationExpired)] ∧
    PM.resolutionsOf raceFinal.log 0 = 2 ∧
    raceFinal.totalBySubject = [("SC", 2)] ∧
    raceFinal.playerScore = 1 := by
  decide

/-! ## C5: reveal pacing and the timeout instant -/

set_option maxRecDepth 4000 in
/-- C5 counterexample: with wpm 150, questionSeconds 10 and a 10-word
question and no buzz, nothing has resolved at 10 s (step 50 of the 200 ms
simulation): the question timer only starts once the text is fully
revealed (4 s), so the timeout fires at 14 s, not 10 s. -/
theorem timeout_not_at_ten_seconds :
    (Timed.simulate 150 10 10 50).t = 10000 ∧
    (Timed.simulate 150 10 10 50).firedAt = none ∧
    (Timed.simulate 150 10 10 70).firedAt = some 14000 ∧
    ¬((14000 : Nat) = 10000) := by
  decide

set_option maxRecDepth 4000 in
/-- C5 amended: word N becomes visible at N·0.4 s (400 ms per word at
150 wpm), and with no buzz the question resolves by handleTimeExpired at
full-reveal time plus questionSeconds — 10·400 + 10·1000 = 14000 ms for a
10-word question — because the question-timer effect runs only once
questionFullyRevealed is set; the timer does not cover the reveal window. -/
theorem reveal_and_timeout_schedule :
    (List.range 11).map (fun n => (Timed.simulate 150 10 10 (2 * n)).revealed) =
      List.range 11 ∧
    (List.range 11).map (fun n => (Timed.simulate 150 10 10 (2 * n)).t) =
      (List.range 11).map (fun n => n * 400) ∧
    (Timed.simulate 150 10 10 69).firedAt = none ∧
    (Timed.simulate 150 10 10 70).firedAt = some 14000 ∧
    (14000 : Nat) = 10 * (60000 / 150) + 10 * 1000 := by
  decide

/-! ## C6: single-winner buzz arbitration -/

lemma runBuzzes_locked (ts : List Nat) :
    ∀ s : GameCtx.GState, s.hasBuzzed = true →
      GameCtx.runBuzzes s ts = (s, List.replicate ts.length false) := by
  induction ts with
  | nil => intro s _; rfl
  | cons t rest ih =>
    intro s hs
    simp only [GameCtx.runBuzzes, GameCtx.buzzIn, hs, Bool.true_or, if_true]
    rw [ih s hs]
    rfl

/-- C6: for a live, not-yet-buzzed question state, the first buzz attempt
wins (setting hasBuzzed and the buzz timestamp) and every later attempt is
rejected returning the state unchanged; attempts against an already-locked
or not-yet-started state are rejected without changing any field. -/
theorem buzz_single_winner (s0 : GameCtx.GState) (t : Nat) (ts : List Nat)
    (h1 : s0.hasStarted = true) (h2 : s0.hasBuzzed = false) :
    (GameCtx.runBuzzes s0 (t :: ts)).2 = true :: List.replicate ts.length false ∧
    (GameCtx.runBuzzes s0 (t :: ts)).1 =
      { s0 with hasBuzzed := true, buzzTime := some t } ∧
    (∀ (s : GameCtx.GState) (u : Nat), s.hasBuzzed = true ∨ s.hasStarted = false →
      GameCtx.buzzIn s u = (s, false)) := by
  have hrej : ∀ (s : GameCtx.GState) (u : Nat), s.hasBuzzed = true ∨ s.hasStarted = false →
      GameCtx.buzzIn s u = (s, false) := by
    intro s u hs
    rcases hs with hs | hs <;> simp [GameCtx.buzzIn, hs]
  have hwin : GameCtx.buzzIn s0 t =
      ({ s0 with hasBuzzed := true, buzzTime := some t }, true) := by
    simp [GameCtx.buzzIn, h1, h2]
  have hlock := runBuzzes_locked ts { s0 with hasBuzzed := true, buzzTime := some t } rfl
  refine ⟨?_, ?_, hrej⟩ <;>
    simp only [GameCtx.runBuzzes, hwin, hlock]

/-- C6 witness: from the started state gsLive, of the three attempts at
times 5, 7, 9 exactly the first wins. -/
theorem buzz_single_winner_witness :
    (GameCtx.runBuzzes gsLive [5, 7, 9]).2 = [true, false, false] ∧
    (GameCtx.runBuzzes gsLive [5, 7, 9]).1 =
      { gsLive with hasBuzzed := true, buzzTime := some 5 } :=
  ⟨(buzz_single_winner gsLive 5 [7, 9] rfl rfl).1,
   (buzz_single_winner gsLive 5 [7, 9] rfl rfl).2.1⟩

/-! ## C10: the legacy averageBuzzTime -/

/-- C10: in GameContext.endGame, the persisted averageBuzzTime is the
literal expression (buzzTime truthy, 2.5, else 0); for every state whose
recorded buzz timestamp is a positive clock value (Date.now), it equals
2.5 when a buzz occurred on the final question and 0 otherwise — it never
depends on any measured latency. -/
theorem average_buzz_time_constant (s : GameCtx.GState)
    (h : ∀ u, s.buzzTime = some u → 0 < u) :
    (GameCtx.mkMatchResult s).averageBuzzTime =
      if s.buzzTime = none then 0 else (5 : Rat) / 2 := by
  cases hb : s.buzzTime with
  | none => simp [GameCtx.mkMatchResult, GameCtx.buzzTimeTruthy, hb]
  | some u =>
    have hu : 0 < u := h u hb
    have hu0 : u ≠ 0 := Nat.pos_iff_ne_zero.mp hu
    simp [GameCtx.mkMatchResult, GameCtx.buzzTimeTruthy, hb, hu0]

/-- C10 witness: the buzzed state gsBuzzed persists averageBuzzTime 2.5. -/
theorem average_buzz_time_constant_witness :
    (GameCtx.mkMatchResult gsBuzzed).averageBuzzTime =
      if gsBuzzed.buzzTime = none then 0 else (5 : Rat) / 2 :=
  average_buzz_time_constant gsBuzzed (by intro u hu; simp [gsBuzzed, gsLive] at hu; omega)

/-! ## C3: behaviour on missing question ids -/

lemma mem_fetchLoop {db : String → Option Store.Question} {ids : List String}
    {q : Store.Question} :
    q ∈ Store.fetchLoop db ids ↔ ∃ qid, qid ∈ ids ∧ db qid = some q := by
  induction ids with
  | nil => simp [Store.fetchLoop]
  | cons h t ih =>
    cases hd : db h with
    | some q2 =>
      simp only [Store.fetchLoop, hd, List.mem_cons, ih]
      constructor
      · rintro (rfl | ⟨qid, hq1, hq2⟩)
        · exact ⟨h, Or.inl rfl, hd⟩
        · exact ⟨qid, Or.inr hq1, hq2⟩
      · rintro ⟨qid, (rfl | hq1), hq2⟩
        · exact Or.inl (by rw [hd] at hq2; exact (Option.some_inj.mp hq2).symm)
        · exact Or.inr ⟨qid, hq1, hq2⟩
    | none =>
      simp only [Store.fetchLoop, hd, List.mem_cons, ih]
      constructor
      · rintro ⟨qid, hq1, hq2⟩
        exact ⟨qid, Or.inr hq1, hq2⟩
      · rintro ⟨qid, (rfl | hq1), hq2⟩
        · rw [hd] at hq2; cases hq2
        · exact ⟨qid, hq1, hq2⟩

lemma find_in_fetchLoop {db : String → Option Store.Question} (hwf : Store.DbWF db)
    (ids : List String) (qid : String) (hmem : qid ∈ ids) :
    (Store.fetchLoop db ids).find? (fun q => q.id = qid) = db qid := by
  induction ids with
  | nil => cases hmem
  | cons h t ih =>
    by_cases hq : h = qid
    · subst hq
      cases hd : db h with
      | some q =>
        have hid : q.id = h := hwf h q hd
        simp [Store.fetchLoop, hd, List.find?, hid]
      | none =>
        simp only [Store.fetchLoop, hd]
        rw [List.find?_eq_none]
        intro x hx hpx
        obtain ⟨qid2, _, hq2⟩ := mem_fetchLoop.mp hx
        have hxid : x.id = qid2 := hwf qid2 x hq2
        rw [decide_eq_true_eq] at hpx
        rw [hxid] at hpx
        subst hpx
        rw [hd] at hq2
        cases hq2
    · have hmem2 : qid ∈ t := by
        rcases List.mem_cons.mp hmem with rfl | hm
        · exact absurd rfl hq
        · exact hm
      cases hd : db h with
      | some q2 =>
        have hid : q2.id = h := hwf h q2 hd
        simp [Store.fetchLoop, hd, List.find?, hid, hq, ih hmem2]
      | none =>
        simpa [Store.fetchLoop, hd] using ih hmem2

/-- C3 counterexample: with a question bank holding q1 but not q2, an
active match whose question list is [q1, q2] loads successfully with the
single found question — getQuestionsByIds does not fail on the missing id
and loadMatch does not abort the session; the missing question is silently
skipped. -/
theorem missing_question_silently_dropped :
    db3 "q2" = none ∧
    Store.getQuestionsByIds db3 ["q1", "q2"] = [q1ex] ∧
    Load.loadMatch games3 db3 (some "g1") "u1" = Load.LoadResult.ok [q1ex] := by
  refine ⟨rfl, rfl, rfl⟩

/-- C3 amended: getQuestionsByIds returns, in request order, exactly the
questions whose ids are found, silently dropping every missing id
(it equals filterMap over the bank); loadMatch aborts only when the
question list is empty or none of the listed ids is found — otherwise the
session proceeds with the partial list. -/
theorem fetch_by_ids_drops_missing (db : String → Option Store.Question)
    (hwf : Store.DbWF db) (ids : List String) :
    Store.getQuestionsByIds db ids = ids.filterMap db ∧
    (∀ (games : String → Option Load.GameDoc) (gid uid : String) (g : Load.GameDoc),
      games gid = some g → g.status = Load.GStatus.active → uid ∈ g.playerIds →
      g.questionIds = ids → ids.filterMap db ≠ [] →
      Load.loadMatch games db (some gid) uid = Load.LoadResult.ok (ids.filterMap db)) := by
  have h1 : Store.getQuestionsByIds db ids = ids.filterMap db := by
    by_cases hnil : ids = []
    · subst hnil; simp [Store.getQuestionsByIds]
    · unfold Store.getQuestionsByIds
      rw [if_neg hnil]
      have hmap : ids.map (fun qid => (Store.fetchLoop db ids).find? (fun q => q.id = qid)) =
          ids.map db :=
        List.map_congr_left (fun qid hq => find_in_fetchLoop hwf ids qid hq)
      simp only [hmap]
      simp [List.reduceOption, List.filterMap_map, Function.comp_def]
  refine ⟨h1, ?_⟩
  intro games gid uid g hg hstat hmem hqids hres
  have hne : ids ≠ [] := by
    intro h
    subst h
    simp at hres
  have hlen : 0 < ids.length := List.length_pos.mpr hne
  have hqlen : ¬((ids.filterMap db).length = 0) := by
    simpa [List.length_eq_zero] using hres
  simp [Load.loadMatch, hg, hstat, hmem, hqids, h1, hlen, hqlen]

lemma db3_wf : Store.DbWF db3 := by
  intro qid q h
  unfold db3 at h
  by_cases hq : qid = "q1"
  · subst hq
    rw [if_pos rfl] at h
    rw [← Option.some_inj.mp h]
    rfl
  · rw [if_neg hq] at h
    cases h

/-- C3 witness: the amended statement evaluated on the bank holding only
q1 and the match listing [q1, q2]. -/
theorem fetch_by_ids_drops_missing_witness :
    Store.getQuestionsByIds db3 ["q1", "q2"] = ["q1", "q2"].filterMap db3 ∧
    Load.loadMatch games3 db3 (some "g1") "u1" =
      Load.LoadResult.ok (["q1", "q2"].filterMap db3) :=
  ⟨(fetch_by_ids_drops_missing db3 db3_wf ["q1", "q2"]).1,
   (fetch_by_ids_drops_missing db3 db3_wf ["q1", "q2"]).2 games3 "g1" "u1"
     { status := .active, playerIds := ["u1"], questionIds := ["q1", "q2"] }
     rfl rfl (by simp) rfl (by decide)⟩

/-! ## C7 and C9: the accounting invariant of the PracticeMode machine -/

lemma sumCounts_bump (m : List (String × Nat)) (s : String) :
    PM.sumCounts (PM.bump m s) = PM.sumCounts m + 1 := by
  induction m with
  | nil => simp [PM.bump, PM.sumCounts]
  | cons kv rest ih =>
    obtain ⟨k, v⟩ := kv
    by_cases hk : k = s <;> simp [PM.bump, hk, PM.sumCounts] at ih ⊢ <;> omega

lemma nonTimeout_append (log : List (Nat × PM.Outcome)) (i : Nat) (o : PM.Outcome) :
    PM.nonTimeoutCount (log ++ [(i, o)]) =
      PM.nonTimeoutCount log + (if o = PM.Outcome.timeout then 0 else 1) := by
  cases o <;> simp [PM.nonTimeoutCount, List.filter_append]

lemma acc_startQuestionAt (ctx : PM.Ctx) (s : PM.St) (v : Nat)
    (h1 : s.playerScore = PM.sumCounts s.correctBySubject)
    (h2 : PM.sumCounts s.totalBySubject = PM.nonTimeoutCount s.log)
    (hidx : s.currentQuestionIndex < ctx.questions.length)
    (h5 : ∀ c, s.hesMsgPending = some c → c.1 < ctx.questions.length)
    (h6 : ∀ mh, mh ∈ s.persisted → mh.hesitationCount = 0) :
    PM.Acc ctx (PM.startQuestionAt ctx s v) := by
  unfold PM.startQuestionAt
  split
  · exact ⟨h1, h2, fun _ => hidx, fun _ => hidx, h5, h6⟩
  · split
    · exact ⟨h1, h2, fun _ => hidx, fun _ => hidx, h5, h6⟩
    · exact ⟨h1, h2, fun _ => hidx, fun _ => hidx, fun c hc => by simp at hc, h6⟩

lemma acc_step (ctx : PM.Ctx) (s : PM.St) (e : PM.Ev) (h : PM.Acc ctx s) :
    PM.Acc ctx (PM.step ctx s e) := by
  obtain ⟨h1, h2, h3, h4, h5, h6⟩ := h
  cases e with
  | revealTick =>
    simp only [PM.step]
    split
    · exact ⟨h1, h2, h3, h4, h5, h6⟩
    · split
      · exact ⟨h1, h2, h3, h4, h5, h6⟩
      · split
        · exact ⟨h1, h2, h3, h4, h5, h6⟩
        · exact ⟨h1, h2, h3, h4, h5, h6⟩
  | qTimerTick =>
    simp only [PM.step]
    split
    · exact ⟨h1, h2, h3, h4, h5, h6⟩
    · exact ⟨h1, h2, h3, h4, h5, h6⟩
  | timeExpire =>
    simp only [PM.step]
    split
    · refine ⟨h1, ?_, h3, h4, h5, h6⟩
      simpa [nonTimeout_append] using h2
    · exact ⟨h1, h2, h3, h4, h5, h6⟩
  | buzz t =>
    simp only [PM.step]
    split
    · exact ⟨h1, h2, h3, h4, h5, h6⟩
    · rename_i hlive
      split
      · exact ⟨h1, h2, h3, h4, h5, h6⟩
      · have hl : s.isQuestionLive = true := by
          by_contra hfalse
          exact hlive (by simp [Bool.eq_false_iff.mpr hfalse])
        refine ⟨h1, h2, fun _ => h3 hl, fun _ => h3 hl, fun c hc => by simp at hc, h6⟩
  | hesStart =>
    simp only [PM.step]
    split
    · exact ⟨h1, h2, h3, h4, h5, h6⟩
    · exact ⟨h1, h2, h3, h4, h5, h6⟩
  | hesTick =>
    simp only [PM.step]
    split
    · exact ⟨h1, h2, h3, h4, h5, h6⟩
    · split
      · exact ⟨h1, h2, h3, h4, h5, h6⟩
      · exact ⟨h1, h2, h3, h4, h5, h6⟩
  | hesZeroShow =>
    simp only [PM.step]
    split
    · exact ⟨h1, h2, h3, h4, h5, h6⟩
    · split
      · exact ⟨h1, h2, h3, h4, h5, h6⟩
      · exact ⟨h1, h2, h3, h4, h5, h6⟩
  | hesMsgSchedule =>
    simp only [PM.step]
    split
    · rename_i hcond
      simp only [Bool.and_eq_true, decide_eq_true_eq] at hcond
      refine ⟨h1, h2, h3, h4, ?_, h6⟩
      intro c hc
      have hcc : (s.currentQuestionIndex, s.playerScore) = c := Option.some_inj.mp hc
      rw [← hcc]
      exact h4 hcond.1.2
    · exact ⟨h1, h2, h3, h4, h5, h6⟩
  | hesMsgFire =>
    simp only [PM.step]
    split
    · exact ⟨h1, h2, h3, h4, h5, h6⟩
    · rename_i cidx cscore hpend
      have hlt : cidx < ctx.questions.length := h5 (cidx, cscore) hpend
      have hq : ctx.questions.get? cidx = some (ctx.questions.get ⟨cidx, hlt⟩) :=
        List.get?_eq_get hlt
      refine ⟨h1, ?_, h3, h4, fun c hc => by simp at hc, h6⟩
      rw [hq]
      simp only
      rw [sumCounts_bump, nonTimeout_append]
      simp [h2]
  | answer a =>
    simp only [PM.step]
    split
    · exact ⟨h1, h2, h3, h4, h5, h6⟩
    · split
      · exact ⟨h1, h2, h3, h4, h5, h6⟩
      · split
        · exact ⟨h1, h2, h3, h4, h5, h6⟩
        · rename_i q hq
          by_cases hc : a = q.correctAnswer
          · refine ⟨?_, ?_, h3, h4, h5, h6⟩
            · simp [hc, sumCounts_bump, h1]
            · simp [hc, sumCounts_bump, nonTimeout_append, h2]
          · refine ⟨?_, ?_, h3, h4, h5, h6⟩
            · simp [hc, h1]
            · simp [hc, sumCounts_bump, nonTimeout_append, h2]
  | advanceFire k =>
    simp only [PM.step]
    split
    · exact ⟨h1, h2, h3, h4, h5, h6⟩
    · rename_i adv hadv
      split
      · -- endGame: appends a record with hesitationCount 0
        refine ⟨h1, h2, h3, h4, h5, ?_⟩
        intro mh hmh
        simp only [PM.endGame, List.mem_append, List.mem_singleton] at hmh
        rcases hmh with hmh | rfl
        · exact h6 mh hmh
        · rfl
      · rename_i hnext
        have hlt : adv.capturedIndex + 1 < ctx.questions.length := Nat.lt_of_not_le hnext
        split
        · exact acc_startQuestionAt ctx _ adv.capturedIndex h1 h2 hlt h5 h6
        · exact acc_startQuestionAt ctx _ adv.capturedIndex h1 h2 hlt h5 h6
        · exact ⟨h1, h2, fun _ => hlt, fun hfalse => by simp at hfalse,
            fun c hc => by simp at hc, h6⟩
  | startQ =>
    simp only [PM.step]
    split
    · rename_i hcond
      have hlt : s.currentQuestionIndex < ctx.questions.length := by
        simp only [Bool.and_eq_true, decide_eq_true_eq] at hcond
        exact hcond.2
      exact acc_startQuestionAt ctx s s.currentQuestionIndex h1 h2 hlt h5 h6
    · exact ⟨h1, h2, h3, h4, h5, h6⟩

lemma acc_init (ctx : PM.Ctx) : PM.Acc ctx (PM.initSt ctx) := by
  refine ⟨rfl, rfl, ?_, ?_, ?_, ?_⟩
  · intro h; simp [PM.initSt] at h
  · intro h; simp [PM.initSt] at h
  · intro c hc; simp [PM.initSt] at hc
  · intro mh hmh; simp [PM.initSt] at hmh

lemma acc_run (ctx : PM.Ctx) (evs : List PM.Ev) :
    ∀ s : PM.St, PM.Acc ctx s → PM.Acc ctx (PM.runEv ctx s evs) := by
  induction evs with
  | nil => intro s hs; exact hs
  | cons e rest ih => intro s hs; exact ih (PM.step ctx s e) (acc_step ctx s e hs)

/-- C7 counterexample: the one-question session that expires with no buzz
completes (its result is persisted with total = 1), yet the persisted
per-subject totals sum to 0, not to the question count — handleTimeExpired
never increments totalBySubject, so timeout questions are dropped from the
totals. -/
theorem timeout_dropped_from_totals :
    timeoutFinal.log = [(0, PM.Outcome.timeout)] ∧
    timeoutFinal.persisted.map (fun r => PM.sumCounts r.totalBySubject) = [0] ∧
    timeoutFinal.persisted.map PM.MHRec.total = [1] ∧
    ¬((0 : Nat) = 1) := by
  decide

/-- C7 amended: in every reachable state of the PracticeMode machine the
score equals the sum of the per-subject correct counts, and the sum of the
per-subject total counts equals the number of answer and hesitation
resolutions — not the number of questions: questions resolved by timeout
are dropped from the totals (and a question hit by the hesitation-window
race is counted twice). -/
theorem score_and_totals_accounting (ctx : PM.Ctx) (evs : List PM.Ev) :
    (PM.runEv ctx (PM.initSt ctx) evs).playerScore =
      PM.sumCounts (PM.runEv ctx (PM.initSt ctx) evs).correctBySubject ∧
    PM.sumCounts (PM.runEv ctx (PM.initSt ctx) evs).totalBySubject =
      PM.nonTimeoutCount (PM.runEv ctx (PM.initSt ctx) evs).log := by
  have h := acc_run ctx evs (PM.initSt ctx) (acc_init ctx)
  exact ⟨h.1, h.2.1⟩

/-- C9 counterexample: the session that loses its only question to
hesitation expiry persists hesitationCount 0 — identical to the session
that loses it to a no-buzz timeout — and the persisted record has no
timeout counter at all, so the two miss kinds are not recorded as
different taxonomy entries. -/
theorem hesitation_count_not_persisted :
    hesitationFinal.log = [(0, PM.Outcome.hesitationExpired)] ∧
    timeoutFinal.log = [(0, PM.Outcome.timeout)] ∧
    hesitationFinal.persisted.map PM.MHRec.hesitationCount = [0] ∧
    timeoutFinal.persisted.map PM.MHRec.hesitationCount = [0] := by
  decide

/-- C9 amended: timeout and hesitation-expiry are distinct code paths and
both count as misses, but the persisted result does not carry them as
taxonomy entries: every record endGame persists has hesitationCount 0 (the
hardcoded literal), and no timeout count exists in the record; the only
persisted difference is that a hesitation expiry increments the subject
total while a timeout does not. -/
theorem persisted_hesitation_count_zero (ctx : PM.Ctx) (evs : List PM.Ev)
    (mh : PM.MHRec) (hmem : mh ∈ (PM.runEv ctx (PM.initSt ctx) evs).persisted) :
    mh.hesitationCount = 0 :=
  (acc_run ctx evs (PM.initSt ctx) (acc_init ctx)).2.2.2.2.2 mh hmem

/-- C9 witness: the record persisted by the hesitation-expiry session has
hesitationCount 0. -/
theorem persisted_hesitation_count_zero_witness :
    { score := 0, total := 1, correctBySubject := [],
      totalBySubject := [("SC", 1)], hesitationCount := 0 : PM.MHRec }.hesitationCount
      = 0 :=
  persisted_hesitation_count_zero ctxOne hesitationEvents _ (by decide)

end LightningLeague
